import Mathlib

set_option maxRecDepth 8000

namespace BillingApp

/-! Shallow embedding of the billing tool core (src/app.py).
Money and rates are modelled as exact rationals, matching the Decimal
arithmetic of the source; Python string helpers are re-implemented on
character lists. -/

def pyLower (s : String) : String := String.mk (s.data.map Char.toLower)

def pyStrip (s : String) : String :=
  String.mk (((s.data.dropWhile Char.isWhitespace).reverse.dropWhile Char.isWhitespace).reverse)

def stripDots (s : String) : String := String.mk (s.data.filter (fun c => c != '.'))

def pyIsDigit (s : String) : Bool := !s.data.isEmpty && s.data.all Char.isDigit

def listStartsWith : List Char → List Char → Bool
  | [], _ => true
  | _ :: _, [] => false
  | a :: as, b :: bs => a == b && listStartsWith as bs

def listHasSub : List Char → List Char → Bool
  | needle, [] => needle.isEmpty
  | needle, c :: rest => listStartsWith needle (c :: rest) || listHasSub needle rest

def pyIn (needle hay : String) : Bool := listHasSub needle.data hay.data

/-- Renderings of Python numeric values as text: the source stores numbers
as machine floats and renders them with str() and format specifiers; the
renderings are kept abstract because the claims never depend on their
internals. -/
structure PyRender where
  str : ℚ → String
  fmt2 : ℚ → String
  fmt1 : ℚ → String

structure Item where
  item_id : String
  sku : String
  name : String
  company : String
  size_mm : ℚ
  size_inch : ℚ
  base_price : ℚ
  tax_rate : ℚ
  discount_rate : ℚ
  search_blob : String
  display_text : String
  created_at : String
  updated_at : String
  deriving DecidableEq, Repr

structure CartLine where
  item_id : String
  sku : String
  name : String
  company : String
  quantity : ℚ
  unit_price : ℚ
  discount_rate : ℚ
  tax_rate : ℚ
  line_total : ℚ
  deriving DecidableEq, Repr

/-- add_to_cart (src/app.py lines 880-905): computes the line total with
exact decimal arithmetic and stores the cart line. -/
def addToCart (item : Item) (quantity : ℕ) (discount_rate : ℚ) : CartLine :=
  let unit_price := item.base_price
  let qty : ℚ := quantity
  let discount := discount_rate / 100
  let line_subtotal := unit_price * qty
  let line_discount := line_subtotal * discount
  let line_total := line_subtotal - line_discount
  { item_id := item.item_id, sku := item.sku, name := item.name, company := item.company,
    quantity := qty, unit_price := unit_price, discount_rate := discount_rate,
    tax_rate := item.tax_rate, line_total := line_total }

/-- Decimal.quantize to 2 places with rounding mode ROUND_HALF_UP: round to
the nearest hundredth, ties away from zero. -/
def roundHalfUp2 (x : ℚ) : ℚ :=
  if x < 0 then -((⌊(-x) * 100 + 1 / 2⌋ : ℚ) / 100)
  else ((⌊x * 100 + 1 / 2⌋ : ℚ) / 100)

structure InvoiceTotals where
  subtotal : ℚ
  total_discount : ℚ
  total_tax : ℚ
  grand_total : ℚ
  deriving DecidableEq, Repr

/-- calculate_invoice_totals (src/app.py lines 907-925), on the list of
line totals of the cart. -/
def calculateInvoiceTotals (cart : List ℚ) (global_discount_rate global_tax_rate : ℚ) :
    InvoiceTotals :=
  let subtotal := cart.foldl (fun acc lt => acc + lt) 0
  let global_discount_amount := subtotal * (global_discount_rate / 100)
  let after_discount := subtotal - global_discount_amount
  let global_tax_amount := after_discount * (global_tax_rate / 100)
  let grand_total := after_discount + global_tax_amount
  { subtotal := roundHalfUp2 subtotal,
    total_discount := roundHalfUp2 global_discount_amount,
    total_tax := roundHalfUp2 global_tax_amount,
    grand_total := roundHalfUp2 grand_total }

/-- Item used in concrete pricing examples. -/
def item100 : Item :=
  { item_id := "id-100", sku := "SKU100", name := "Widget", company := "Acme",
    size_mm := 0, size_inch := 0, base_price := 100, tax_rate := 18, discount_rate := 0,
    search_blob := "", display_text := "", created_at := "", updated_at := "" }

/-- Item whose base price has three decimal digits. -/
def itemP : Item :=
  { item_id := "id-p", sku := "SKUP", name := "Precise", company := "Acme",
    size_mm := 0, size_inch := 0, base_price := 201 / 200, tax_rate := 0, discount_rate := 0,
    search_blob := "", display_text := "", created_at := "", updated_at := "" }

theorem foldl_add_eq_sum (cart : List ℚ) :
    ∀ a : ℚ, cart.foldl (fun acc lt => acc + lt) a = a + cart.sum := by
  induction cart with
  | nil => intro a; simp
  | cons x xs ih => intro a; simp [List.foldl_cons, ih, List.sum_cons]; ring

/-- Claim C1: the pricing pipeline reproduces the worked example: line total
for unit price 100.00, quantity 3, line discount 10.0 is 270.00, and the
cart with line totals 270.00 and 50.00 under global discount 0 and global
tax 18.0 yields subtotal 320.00, discount 0.00, tax 57.60, grand total
377.60. -/
theorem c1_pricing_example :
    (addToCart item100 3 10).line_total = 270 ∧
      calculateInvoiceTotals [270, 50] 0 18 =
        { subtotal := 320, total_discount := 0, total_tax := 288 / 5, grand_total := 1888 / 5 } := by
  constructor
  · norm_num [addToCart, item100]
  · norm_num [calculateInvoiceTotals, roundHalfUp2, InvoiceTotals.mk.injEq]

/-- Claim C2, counterexample: the line total stored by addToCart for unit
price 1.005, quantity 1, discount 0 equals no integer number of
hundredths, hence it is not rounded to 2 decimal places. -/
theorem c2_counterexample :
    ¬ ∃ n : ℤ, (addToCart itemP 1 0).line_total = (n : ℚ) / 100 := by
  rintro ⟨n, hn⟩
  have hval : (addToCart itemP 1 0).line_total = (201 : ℚ) / 200 := by
    norm_num [addToCart, itemP]
  rw [hval] at hn
  have h2 : (n : ℚ) * 2 = 201 := by
    field_simp at hn
    linarith
  have h3 : n * 2 = 201 := by exact_mod_cast h2
  omega

/-- Claim C2, amended: the line total stored in a cart line is the exact
unrounded value unit price times quantity times (1 - rate/100); no rounding
is applied at the point the line is added to the cart. -/
theorem c2_line_total_unrounded (item : Item) (quantity : ℕ) (dr : ℚ) :
    (addToCart item quantity dr).line_total =
      item.base_price * (quantity : ℚ) * (1 - dr / 100) := by
  simp only [addToCart]
  ring

/-- Claim C3: each of the four returned invoice totals is the half-up
rounding, applied once as the final step, of the corresponding unrounded
quantity; in particular the grand total is rounded from the unrounded
after-discount plus tax, and 12.345 rounds up to 12.35. -/
theorem c3_rounding_once (cart : List ℚ) (gdr gtr : ℚ) :
    calculateInvoiceTotals cart gdr gtr =
      { subtotal := roundHalfUp2 cart.sum,
        total_discount := roundHalfUp2 (cart.sum * (gdr / 100)),
        total_tax := roundHalfUp2 ((cart.sum - cart.sum * (gdr / 100)) * (gtr / 100)),
        grand_total :=
          roundHalfUp2
            ((cart.sum - cart.sum * (gdr / 100)) +
              (cart.sum - cart.sum * (gdr / 100)) * (gtr / 100)) } ∧
      roundHalfUp2 (12345 / 1000 : ℚ) = 1235 / 100 := by
  constructor
  · have hs : cart.foldl (fun acc lt => acc + lt) 0 = cart.sum := by
      simpa using foldl_add_eq_sum cart 0
    simp [calculateInvoiceTotals, hs]
  · norm_num [roundHalfUp2]

/-! ### Search engine (DataManager.search_inventory, src/app.py lines 245-278)

The fuzzy blob score fuzz.partial_ratio comes from an external library
(rapidfuzz), so it is kept abstract as a parameter B of the search. -/

/-- Score of one inventory row against the normalized query, exactly as
computed in the loop of search_inventory. -/
def totalScore (R : PyRender) (B : String → String → ℚ) (q : String) (row : Item) : ℚ :=
  let blob_score := B q row.search_blob
  let sku_boost : ℚ := if pyIn q (pyLower row.sku) then 20 else 0
  let name_boost : ℚ := if pyIn q (pyLower row.name) then 15 else 0
  let company_boost : ℚ := if pyIn q (pyLower row.company) then 10 else 0
  let numeric_boost : ℚ :=
    if pyIsDigit (stripDots q) then
      let price_match : ℚ := if pyIn q (R.str row.base_price) then 15 else 0
      let size_match : ℚ :=
        if pyIn q (R.str row.size_mm) || pyIn q (R.str row.size_inch) then 10 else 0
      max price_match size_match
    else 0
  blob_score + sku_boost + name_boost + company_boost + numeric_boost

/-- Stable insertion for descending sort by score: a new element goes in
front of the first element whose score is not larger.  Python list.sort
with reverse=True is a stable descending sort, and stable sorting is
extensionally unique, so this insertion sort is a faithful model. -/
def insertDesc (x : Item × ℚ) : List (Item × ℚ) → List (Item × ℚ)
  | [] => [x]
  | y :: ys => if x.2 < y.2 then y :: insertDesc x ys else x :: y :: ys

def sortDesc : List (Item × ℚ) → List (Item × ℚ)
  | [] => []
  | x :: xs => insertDesc x (sortDesc xs)

/-- The threshold test of search_inventory: keep scores strictly above 30. -/
def scoreAbove (p : Item × ℚ) : Bool := decide ((30 : ℚ) < p.2)

/-- search_inventory on an already loaded inventory list: empty query or
empty store returns the first limit rows; otherwise rows are scored,
sorted descending, truncated to limit, filtered by the threshold, and the
first limit rows are the fallback when nothing survives. -/
def searchInventory (R : PyRender) (B : String → String → ℚ) (df : List Item)
    (query : String) (limit : ℕ) : List Item :=
  if df.isEmpty || (pyStrip query == "") then df.take limit
  else
    let q := pyStrip (pyLower query)
    let scored := df.map (fun row => (row, totalScore R B q row))
    let sorted := sortDesc scored
    let top := (sorted.take limit).filter scoreAbove
    if top.isEmpty then df.take limit else top.map Prod.fst

/-- The search pipeline as the spec words it: discard all candidates at or
below score 30, then truncate the survivors to the limit. -/
def searchInventorySpec (R : PyRender) (B : String → String → ℚ) (df : List Item)
    (query : String) (limit : ℕ) : List Item :=
  if df.isEmpty || (pyStrip query == "") then df.take limit
  else
    let q := pyStrip (pyLower query)
    let scored := df.map (fun row => (row, totalScore R B q row))
    let survivors := ((sortDesc scored).filter scoreAbove).take limit
    if survivors.isEmpty then df.take limit else survivors.map Prod.fst

theorem mem_insertDesc (x a : Item × ℚ) (l : List (Item × ℚ)) :
    a ∈ insertDesc x l ↔ a = x ∨ a ∈ l := by
  induction l with
  | nil => simp [insertDesc]
  | cons y ys ih =>
    simp only [insertDesc]
    split
    · simp only [List.mem_cons, ih]
      tauto
    · simp only [List.mem_cons]

theorem pairwise_insertDesc (x : Item × ℚ) (l : List (Item × ℚ))
    (h : l.Pairwise (fun a b => b.2 ≤ a.2)) :
    (insertDesc x l).Pairwise (fun a b => b.2 ≤ a.2) := by
  induction l with
  | nil => simp [insertDesc]
  | cons y ys ih =>
    rcases List.pairwise_cons.mp h with ⟨hy, hys⟩
    simp only [insertDesc]
    split
    · rename_i hlt
      refine List.pairwise_cons.mpr ⟨?_, ih hys⟩
      intro b hb
      rcases (mem_insertDesc x b ys).mp hb with rfl | hbys
      · exact le_of_lt hlt
      · exact hy b hbys
    · rename_i hnlt
      refine List.pairwise_cons.mpr ⟨?_, h⟩
      intro b hb
      rcases List.mem_cons.mp hb with rfl | hbys
      · exact le_of_not_lt hnlt
      · exact le_trans (hy b hbys) (le_of_not_lt hnlt)

theorem pairwise_sortDesc (l : List (Item × ℚ)) :
    (sortDesc l).Pairwise (fun a b => b.2 ≤ a.2) := by
  induction l with
  | nil => simp [sortDesc]
  | cons x xs ih =>
    simp only [sortDesc]
    exact pairwise_insertDesc x (sortDesc xs) ih

/-- On a list sorted descending by score, truncating before the threshold
filter gives the same list as filtering before truncating. -/
theorem filter_take_sorted (l : List (Item × ℚ))
    (h : l.Pairwise (fun a b => b.2 ≤ a.2)) (n : ℕ) :
    (l.take n).filter scoreAbove = (l.filter scoreAbove).take n := by
  induction l generalizing n with
  | nil => simp
  | cons a t ih =>
    rcases List.pairwise_cons.mp h with ⟨ha, ht⟩
    cases n with
    | zero => simp
    | succ m =>
      cases hpa : scoreAbove a with
      | true =>
        simp [List.take_succ_cons, List.filter_cons, hpa, ih ht m]
      | false =>
        have hta : ∀ b ∈ t, ¬ (scoreAbove b = true) := by
          intro b hb hbtrue
          have hb2 : b.2 ≤ a.2 := ha b hb
          have ha2 : ¬ ((30 : ℚ) < a.2) := by
            simpa [scoreAbove] using hpa
          have hb3 : (30 : ℚ) < b.2 := by
            simpa [scoreAbove] using hbtrue
          exact ha2 (lt_of_lt_of_le hb3 hb2)
        have h1 : (t.take m).filter scoreAbove = [] :=
          List.filter_eq_nil_iff.mpr (fun b hb => hta b (List.take_subset m t hb))
        have h2 : t.filter scoreAbove = [] := List.filter_eq_nil_iff.mpr hta
        simp [List.take_succ_cons, List.filter_cons, hpa, h1, h2]

def skuBoost (q : String) (row : Item) : ℚ := if pyIn q (pyLower row.sku) then 20 else 0

def nameBoost (q : String) (row : Item) : ℚ := if pyIn q (pyLower row.name) then 15 else 0

def companyBoost (q : String) (row : Item) : ℚ :=
  if pyIn q (pyLower row.company) then 10 else 0

/-- Numeric boost as the claim words it: only when the query with dot
characters removed is all digits, the maximum (not the sum) of +15 for a
verbatim match in the rendering of base_price and +10 for a match in
either size rendering. -/
def numericBoost (R : PyRender) (q : String) (row : Item) : ℚ :=
  if pyIsDigit (stripDots q) then
    max (if pyIn q (R.str row.base_price) then (15 : ℚ) else 0)
      (if pyIn q (R.str row.size_mm) || pyIn q (R.str row.size_inch) then (10 : ℚ) else 0)
  else 0

/-- Total score as the claim words it: fuzzy blob score plus the additive
exact-substring boosts plus the numeric boost. -/
def claimTotalScore (R : PyRender) (B : String → String → ℚ) (q : String) (row : Item) : ℚ :=
  B q row.search_blob + skuBoost q row + nameBoost q row + companyBoost q row +
    numericBoost R q row

theorem filter_insertDesc_eq_score (x : Item × ℚ) (c : ℚ) (hx : x.2 = c) :
    ∀ l : List (Item × ℚ),
      (insertDesc x l).filter (fun p => decide (p.2 = c)) =
        x :: l.filter (fun p => decide (p.2 = c)) := by
  intro l
  induction l with
  | nil => simp [insertDesc, hx]
  | cons y ys ih =>
    simp only [insertDesc]
    split
    · rename_i hlt
      have hy : ¬ (y.2 = c) := by
        intro hyc
        rw [hx] at hlt
        rw [hyc] at hlt
        exact lt_irrefl c hlt
      simp only [List.filter_cons, hy, decide_eq_true_eq, if_neg, ih]
      simp [hy]
    · simp [List.filter_cons, hx]

theorem filter_insertDesc_ne_score (x : Item × ℚ) (c : ℚ) (hx : ¬ (x.2 = c)) :
    ∀ l : List (Item × ℚ),
      (insertDesc x l).filter (fun p => decide (p.2 = c)) =
        l.filter (fun p => decide (p.2 = c)) := by
  intro l
  induction l with
  | nil => simp [insertDesc, hx]
  | cons y ys ih =>
    simp only [insertDesc]
    split
    · simp only [List.filter_cons, ih]
    · simp [List.filter_cons, hx]

/-- Stability of the descending sort: for every score value, the rows
carrying that score appear in the sorted list in their original store
order. -/
theorem filter_sortDesc_score (l : List (Item × ℚ)) (c : ℚ) :
    (sortDesc l).filter (fun p => decide (p.2 = c)) =
      l.filter (fun p => decide (p.2 = c)) := by
  induction l with
  | nil => simp [sortDesc]
  | cons x xs ih =>
    simp only [sortDesc]
    by_cases hx : x.2 = c
    · rw [filter_insertDesc_eq_score x c hx (sortDesc xs), ih, List.filter_cons]
      simp [hx]
    · rw [filter_insertDesc_ne_score x c hx (sortDesc xs), ih, List.filter_cons]
      simp [hx]

/-- Claim C5: the total search score of a record is its fuzzy blob score
plus additive exact-substring boosts of +20 for SKU, +15 for name, +10 for
company, plus the digits-only numeric boost taken as a maximum; and the
ranked results are ordered by this score descending with ties keeping
store order. -/
theorem c5_scoring_formula_and_order (R : PyRender) (B : String → String → ℚ) :
    (∀ q row, totalScore R B q row = claimTotalScore R B q row) ∧
      (∀ l : List (Item × ℚ), (sortDesc l).Pairwise (fun a b => b.2 ≤ a.2)) ∧
      (∀ (l : List (Item × ℚ)) (c : ℚ),
        (sortDesc l).filter (fun p => decide (p.2 = c)) =
          l.filter (fun p => decide (p.2 = c))) ∧
      (∀ df query limit,
        searchInventory R B df query limit =
          if df.isEmpty || (pyStrip query == "") then df.take limit
          else
            let q := pyStrip (pyLower query)
            let top :=
              ((sortDesc (df.map (fun row => (row, claimTotalScore R B q row)))).take
                  limit).filter scoreAbove
            if top.isEmpty then df.take limit else top.map Prod.fst) := by
  have hscore : ∀ q row, totalScore R B q row = claimTotalScore R B q row := by
    intro q row
    simp [totalScore, claimTotalScore, skuBoost, nameBoost, companyBoost, numericBoost]
  refine ⟨hscore, pairwise_sortDesc, filter_sortDesc_score, ?_⟩
  intro df query limit
  simp only [searchInventory, hscore]

def R0 : PyRender := { str := fun _ => "", fmt2 := fun _ => "", fmt1 := fun _ => "" }

/-- Claim C4, counterexample: with a one-item store and limit 0, the search
returns the empty list even though the store is not empty, refuting the
clause that the result is empty only when the store itself is empty. -/
theorem c4_counterexample :
    searchInventory R0 (fun _ _ => (100 : ℚ)) [item100] "w" 0 = [] ∧
      ([item100] : List Item) ≠ [] := by
  constructor
  · rfl
  · simp

/-- Claim C4, amended: for a non-empty store, the search equals the
pipeline that discards candidates scoring at most 30 and truncates the
survivors to the limit, with the first-limit-rows fallback when all are
discarded; and with a positive limit the result is never empty. -/
theorem c4_search_spec_equiv (R : PyRender) (B : String → String → ℚ) (df : List Item)
    (query : String) (limit : ℕ) (hdf : df ≠ []) (hlim : 1 ≤ limit) :
    searchInventory R B df query limit = searchInventorySpec R B df query limit ∧
      searchInventory R B df query limit ≠ [] := by
  have hspec : searchInventory R B df query limit = searchInventorySpec R B df query limit := by
    simp only [searchInventory, searchInventorySpec]
    rw [filter_take_sorted _ (pairwise_sortDesc _) limit]
  refine ⟨hspec, ?_⟩
  obtain ⟨d, ds, rfl⟩ : ∃ d ds, df = d :: ds := by
    cases df with
    | nil => exact absurd rfl hdf
    | cons d ds => exact ⟨d, ds, rfl⟩
  obtain ⟨m, rfl⟩ : ∃ m, limit = m + 1 := ⟨limit - 1, by omega⟩
  have htake : (d :: ds).take (m + 1) ≠ [] := by simp [List.take_succ_cons]
  simp only [searchInventory]
  split
  · exact htake
  · split
    · exact htake
    · rename_i htop
      intro hmap
      rw [List.map_eq_nil_iff] at hmap
      exact htop (by rw [hmap]; rfl)

/-- Witness for the amended claim C4 at a concrete store, query and limit. -/
theorem c4_search_spec_equiv_witness :
    ([item100] : List Item) ≠ [] ∧ 1 ≤ 1 ∧
      (searchInventory R0 (fun _ _ => (100 : ℚ)) [item100] "w" 1 =
          searchInventorySpec R0 (fun _ _ => (100 : ℚ)) [item100] "w" 1 ∧
        searchInventory R0 (fun _ _ => (100 : ℚ)) [item100] "w" 1 ≠ []) :=
  ⟨by simp, by norm_num,
    c4_search_spec_equiv R0 (fun _ _ => (100 : ℚ)) [item100] "w" 1 (by simp) (by norm_num)⟩

/-- Claim C9: for every query, inventory and non-negative limit, the search
returns at most limit records, on the ranked path, the empty-query path
and the threshold-fallback path alike. -/
theorem c9_result_length_le_limit (R : PyRender) (B : String → String → ℚ)
    (df : List Item) (query : String) (limit : ℕ) :
    (searchInventory R B df query limit).length ≤ limit := by
  simp only [searchInventory]
  split
  · simp only [List.length_take]
    omega
  · split
    · simp only [List.length_take]
      omega
    · simp only [List.length_map]
      exact le_trans (List.length_filter_le _ _)
        (by simp only [List.length_take]; omega)

/-! ### Record store (DataManager.load_inventory and save_inventory) -/

/-- Rendering of the exact integer value of a whole number, used where the
source applies int() to a whole-valued float before formatting. -/
def intText (x : ℚ) : String := toString x.num

/-- _create_search_blob (src/app.py lines 173-185): lower-cased join of the
renderings of the searchable fields. -/
def createSearchBlob (R : PyRender) (row : Item) : String :=
  pyLower (String.intercalate " "
    [row.sku, row.name, row.company, R.str row.size_mm, R.str row.size_inch,
     R.str row.base_price, R.str row.tax_rate, R.str row.discount_rate])

/-- _create_display_text (src/app.py lines 187-243): human readable summary
for selection UIs; whole numbers lose their trailing zeros, rates appear
only when positive. -/
def createDisplayText (R : PyRender) (row : Item) : String :=
  let parts : List String :=
    (if row.sku != "" then [row.sku] else []) ++
    (if row.name != "" then [row.name] else []) ++
    (if row.company != "" then [row.company] else []) ++
    [if row.base_price.den = 1 then "₹" ++ intText row.base_price
     else "₹" ++ R.fmt2 row.base_price] ++
    [String.intercalate " / "
      [(if row.size_mm.den = 1 then intText row.size_mm else R.str row.size_mm) ++ "mm",
       (if row.size_inch.den = 1 then intText row.size_inch else R.str row.size_inch) ++ "\""]] ++
    (let rates : List String :=
      (if 0 < row.tax_rate then
        ["Tax: " ++ (if row.tax_rate.den = 1 then intText row.tax_rate
          else R.fmt1 row.tax_rate) ++ "%"]
       else []) ++
      (if 0 < row.discount_rate then
        ["Disc: " ++ (if row.discount_rate.den = 1 then intText row.discount_rate
          else R.fmt1 row.discount_rate) ++ "%"]
       else [])
     if rates.isEmpty then [] else [String.intercalate " | " rates])
  String.intercalate " | " parts

/-- State of a stored file: none models an absent file, failed models a
present file whose parse raises, ok models a successful parse. -/
inductive ParseOutcome (α : Type) where
  | ok (value : α)
  | failed (raw : String)
  deriving DecidableEq, Repr

structure InvTable where
  cols : List String
  rows : List Item
  deriving DecidableEq, Repr

def canonicalInventoryColumns : List String :=
  ["item_id", "sku", "name", "company", "size_mm", "size_inch",
   "base_price", "tax_rate", "discount_rate", "search_blob",
   "display_text", "created_at", "updated_at"]

/-- What load_inventory produces: the table handed back to the caller plus
whether st.error was invoked on the way. -/
structure LoadInventoryResult where
  table : InvTable
  errorShown : Bool
  deriving DecidableEq, Repr

/-- DataManager.load_inventory (src/app.py lines 83-111): an absent file
yields the empty canonical-schema table; a parsed table gets the
display_text column backfilled when missing; a parse failure is caught,
a UI error is shown, and the empty canonical-schema table is returned. -/
def loadInventory (R : PyRender) (file : Option (ParseOutcome InvTable)) :
    LoadInventoryResult :=
  match file with
  | none =>
      { table := { cols := canonicalInventoryColumns, rows := [] }, errorShown := false }
  | some (.ok t) =>
      if "display_text" ∈ t.cols then { table := t, errorShown := false }
      else
        { table :=
            { cols := t.cols ++ ["display_text"],
              rows := t.rows.map (fun r => { r with display_text := createDisplayText R r }) },
          errorShown := false }
  | some (.failed _) =>
      { table := { cols := canonicalInventoryColumns, rows := [] }, errorShown := true }

/-- The per-row derived-field refresh applied by save_inventory. -/
def updateDerivedRow (R : PyRender) (now : String) (r : Item) : Item :=
  { r with
    search_blob := createSearchBlob R r,
    display_text := createDisplayText R r,
    updated_at := now }

/-- DataManager.save_inventory (src/app.py lines 113-132): recomputes
search_blob, display_text and updated_at for every row, then serializes
the full table. -/
def saveInventory (R : PyRender) (now : String) (rows : List Item) : InvTable :=
  { cols := canonicalInventoryColumns, rows := rows.map (updateDerivedRow R now) }

/-- The source fields of an inventory record, the ones save_inventory never
rewrites. -/
structure SourceFields where
  item_id : String
  sku : String
  name : String
  company : String
  size_mm : ℚ
  size_inch : ℚ
  base_price : ℚ
  tax_rate : ℚ
  discount_rate : ℚ
  deriving DecidableEq, Repr

def sourceFields (r : Item) : SourceFields :=
  { item_id := r.item_id, sku := r.sku, name := r.name, company := r.company,
    size_mm := r.size_mm, size_inch := r.size_inch, base_price := r.base_price,
    tax_rate := r.tax_rate, discount_rate := r.discount_rate }

/-- Claim C6, counterexample: after a parse failure the caller receives
exactly the same empty canonical table as for an absent file, so the error
is not surfaced to the caller as a distinct outcome. -/
theorem c6_counterexample :
    (loadInventory R0 (some (.failed "corrupt bytes"))).table =
      (loadInventory R0 none).table := rfl

/-- Claim C6, amended: an absent file yields the empty canonical-schema
table with no error; a present file whose parse fails yields a UI error
message and the very same empty canonical-schema table, the fallback to
empty happening inside load rather than in the caller. -/
theorem c6_load_absent_and_parse_failure (R : PyRender) (raw : String) :
    loadInventory R none =
        { table := { cols := canonicalInventoryColumns, rows := [] }, errorShown := false } ∧
      loadInventory R (some (.failed raw)) =
        { table := { cols := canonicalInventoryColumns, rows := [] }, errorShown := true } :=
  ⟨rfl, rfl⟩

/-- Claim C7: saving a table and loading it back preserves every source
field of every row, the loaded rows being exactly the saved rows with the
derived fields consistently recomputed. -/
theorem c7_round_trip (R : PyRender) (now : String) (rows : List Item) :
    (loadInventory R (some (.ok (saveInventory R now rows)))).table.rows =
        rows.map (updateDerivedRow R now) ∧
      (loadInventory R (some (.ok (saveInventory R now rows)))).table.rows.map sourceFields =
        rows.map sourceFields := by
  have hmem : "display_text" ∈ canonicalInventoryColumns := by
    simp [canonicalInventoryColumns]
  constructor
  · simp [loadInventory, saveInventory, hmem]
  · simp only [loadInventory, saveInventory, hmem, if_pos, List.map_map]
    rfl

/-! ### Settings (DataManager.load_settings, src/app.py lines 31-59) -/

inductive SettingVal where
  | s (v : String)
  | q (v : ℚ)
  | n (v : ℕ)
  | kv (v : List (String × String))
  deriving DecidableEq, Repr

/-- The hard-coded default settings of load_settings. -/
def defaultSettings : List (String × SettingVal) :=
  [("storage_mode", .s "parquet"),
   ("default_tax_rate", .q 0),
   ("default_discount_rate", .q 0),
   ("invoice_number_prefix", .s "INV"),
   ("invoice_counter", .n 1),
   ("currency", .s "INR"),
   ("currency_symbol", .s "₹"),
   ("rounding_mode", .s "ROUND_HALF_UP"),
   ("business_info", .kv
     [("name", "LOSRA ENTERPRISES"),
      ("address", "#74-2-20, Yanamalakuduru Lakula Rd, Vijayawada, Andhra Pradesh 520007"),
      ("phone", "8977127227, 9848417615"),
      ("email", "losraenterprises437@gmail.com")])]

def lookupKey (d : List (String × SettingVal)) (k : String) : Option SettingVal :=
  (d.find? (fun p => p.1 == k)).map Prod.snd

/-- Python dict.update semantics: keys of the base keep their position and
are overridden when present in the update, unknown keys are appended. -/
def dictUpdate (base upd : List (String × SettingVal)) : List (String × SettingVal) :=
  base.map (fun p =>
    match lookupKey upd p.1 with
    | some v => (p.1, v)
    | none => p) ++
  upd.filter (fun p => (lookupKey base p.1).isNone)

structure LoadSettingsResult where
  settings : List (String × SettingVal)
  file : Option (ParseOutcome (List (String × SettingVal)))
  errorShown : Bool

/-- DataManager.load_settings: overlay persisted values over the defaults;
a parse failure is swallowed by a bare except, and save_settings then
rewrites the settings file with whatever was adopted. -/
def loadSettings (file : Option (ParseOutcome (List (String × SettingVal)))) :
    LoadSettingsResult :=
  match file with
  | none =>
      { settings := defaultSettings, file := some (.ok defaultSettings), errorShown := false }
  | some (.ok loaded) =>
      let merged := dictUpdate defaultSettings loaded
      { settings := merged, file := some (.ok merged), errorShown := false }
  | some (.failed _) =>
      { settings := defaultSettings, file := some (.ok defaultSettings), errorShown := false }

/-- Claim C10: when the settings file exists but cannot be parsed, loading
reports no error, adopts the hard-coded defaults unmerged, and overwrites
the file on disk with those defaults, so the persisted invoice counter is
replaced by the default value 1. -/
theorem c10_settings_parse_failure_silently_resets (raw : String) :
    loadSettings (some (.failed raw)) =
        { settings := defaultSettings, file := some (.ok defaultSettings),
          errorShown := false } ∧
      lookupKey (loadSettings (some (.failed raw))).settings "invoice_counter" =
        some (.n 1) := by
  refine ⟨rfl, ?_⟩
  rfl

/-! ### Invoice numbering (save_invoice, src/app.py lines 927-964) -/

structure BillingState where
  invoice_counter : ℕ
  invoices : List (String × ℕ)

/-- Python format specifier 04d: decimal digits left-padded with zeros to
at least four characters. -/
def padFour (n : ℕ) : String :=
  let s := toString n
  String.mk (List.replicate (4 - s.length) '0') ++ s

def formatInvoiceNumber (pfx : String) (counter : ℕ) : String :=
  pfx ++ "-" ++ padFour counter

inductive BillingOp where
  | save (writeOk : Bool)
  | editInvoices (f : List (String × ℕ) → List (String × ℕ))

/-- One step of the billing history. save_invoice stamps the invoice with
the current counter and, only when the write succeeds, appends it and
increments the counter. The repository defines no invoice-delete
operation; editInvoices models any external change to the invoices table
(deletion included), which leaves the settings counter untouched. -/
def billingStep (pfx : String) (s : BillingState) : BillingOp → BillingState
  | .save true =>
      { invoice_counter := s.invoice_counter + 1,
        invoices := s.invoices ++
          [(formatInvoiceNumber pfx s.invoice_counter, s.invoice_counter)] }
  | .save false => s
  | .editInvoices f => { s with invoices := f s.invoices }

/-- Counter components of the invoice numbers issued by the successful
saves of a history, in order. -/
def issuedCounters (pfx : String) (s : BillingState) : List BillingOp → List ℕ
  | [] => []
  | .save true :: rest =>
      s.invoice_counter :: issuedCounters pfx (billingStep pfx s (.save true)) rest
  | op :: rest => issuedCounters pfx (billingStep pfx s op) rest

theorem issuedCounters_lower_bound (pfx : String) :
    ∀ (ops : List BillingOp) (s : BillingState) (x : ℕ),
      x ∈ issuedCounters pfx s ops → s.invoice_counter ≤ x := by
  intro ops
  induction ops with
  | nil =>
    intro s x hx
    simp [issuedCounters] at hx
  | cons op rest ih =>
    intro s x hx
    cases op with
    | save ok =>
      cases ok with
      | true =>
        simp only [issuedCounters] at hx
        rcases List.mem_cons.mp hx with rfl | hx2
        · exact le_refl _
        · have h := ih _ x hx2
          simp only [billingStep] at h
          omega
      | false =>
        simp only [issuedCounters] at hx
        exact ih _ x hx
    | editInvoices f =>
      simp only [issuedCounters] at hx
      have h := ih (billingStep pfx s (.editInvoices f)) x hx
      exact h

/-- Claim C8: along any billing history, the counters embedded in the
issued invoice numbers are strictly increasing, hence consecutive
successful saves yield strictly greater numbers and no number is ever
reused, regardless of invoice deletions in between. -/
theorem c8_invoice_counters_strictly_increase (pfx : String) (s : BillingState)
    (ops : List BillingOp) :
    (issuedCounters pfx s ops).Pairwise (· < ·) ∧
      (issuedCounters pfx s ops).Pairwise (· ≠ ·) := by
  have hlt : (issuedCounters pfx s ops).Pairwise (· < ·) := by
    induction ops generalizing s with
    | nil => simp [issuedCounters]
    | cons op rest ih =>
      cases op with
      | save ok =>
        cases ok with
        | true =>
          simp only [issuedCounters]
          refine List.pairwise_cons.mpr ⟨?_, ih _⟩
          intro x hx
          have h := issuedCounters_lower_bound pfx rest _ x hx
          simp only [billingStep] at h
          omega
        | false => simpa only [issuedCounters] using ih s
      | editInvoices f => simpa only [issuedCounters] using ih _
  exact ⟨hlt, hlt.imp (fun h => ne_of_lt h)⟩

end BillingApp
